import Mathlib

/-!
Verification of the package-assembly/parsing subsystem of a
WordprocessingML (docx) library.  The embedding follows `src/docx/src/docx.rs`:
the `Docx` aggregate, its `write` protocol into a zip container, the
`DocxFile` extractor (`from_reader`) and the parse step (`parse`).
Part schemas (XML element grammars) are external collaborators and are
modelled abstractly; relationship graphs and id allocation are modelled
from the specification because `rels.rs` is not part of the sources.
-/

namespace DocxRs

/-- Errors of the subsystem: archive entry not found, an I/O or container
read failure, and an XML parse failure carrying a message. -/
inductive DocxError where
  | fileNotFound : DocxError
  | io : DocxError
  | xml : String → DocxError
deriving DecidableEq, Repr

/-- Modelled from the spec: app (extended) properties part; its element
schema is out of scope, so the part is its raw XML text content. -/
structure App where
  content : String
deriving DecidableEq, Repr

/-- Modelled from the spec: core properties part; schema out of scope,
the part is its raw XML text content. -/
structure Core where
  content : String
deriving DecidableEq, Repr

/-- Modelled from the spec: font table part; schema out of scope,
the part is its raw XML text content. -/
structure FontTable where
  content : String
deriving DecidableEq, Repr

/-- Modelled from the spec: content-type registry, a set of
(extension, default type) pairs and (path, override type) pairs. -/
structure ContentTypes where
  defaults : List (String × String)
  overrides : List (String × String)
deriving DecidableEq, Repr

/-- Modelled from the spec: the document body, an ordered sequence of
block-level content nodes (their internal schema is out of scope, each
node is carried as text). -/
structure Document where
  body : List String
deriving DecidableEq, Repr

/-- Modelled from the spec: style definitions part, a sequence of styles
(each style's schema is out of scope, carried as text). -/
structure Styles where
  styles : List String
deriving DecidableEq, Repr

/-- Modelled from the spec: a relationship is an (id, schema type, target
path) triple; ids are opaque tokens rendered as `rId{n}` and are modelled
by their numeric part `n`. -/
structure Relationship where
  id : Nat
  schema : String
  target : String
deriving DecidableEq, Repr

/-- Modelled from the spec: a relationship graph, an ordered sequence of
relationships in insertion order. -/
structure Relationships where
  relationships : List Relationship := []
deriving DecidableEq, Repr

instance : Inhabited Relationships := ⟨{}⟩

/-- Relationship schema type URI for extended (app) properties. -/
def SCHEMA_REL_EXTENDED : String :=
  "http://schemas.openxmlformats.org/officeDocument/2006/relationships/extended-properties"

/-- Relationship schema type URI for core properties. -/
def SCHEMA_CORE : String :=
  "http://schemas.openxmlformats.org/package/2006/relationships/metadata/core-properties"

/-- Relationship schema type URI for the office document part. -/
def SCHEMA_OFFICE_DOCUMENT : String :=
  "http://schemas.openxmlformats.org/officeDocument/2006/relationships/officeDocument"

/-- Relationship schema type URI for style definitions. -/
def SCHEMA_STYLES : String :=
  "http://schemas.openxmlformats.org/officeDocument/2006/relationships/styles"

/-- Relationship schema type URI for the font table. -/
def SCHEMA_FONT_TABLE : String :=
  "http://schemas.openxmlformats.org/officeDocument/2006/relationships/fontTable"

/-- Largest numeric id used in a list of relationships (0 when empty). -/
def maxId : List Relationship → Nat
  | [] => 0
  | r :: rest => max r.id (maxId rest)

/-- Modelled from the spec: `add_rel` allocates the next unused id
(monotonic, never colliding with any id already in the graph, even after
parsing an externally produced graph with sparse ids), appends the
relationship and returns the allocated id. -/
def Relationships.add_rel (g : Relationships) (schema target : String) :
    Relationships × Nat :=
  let id := maxId g.relationships + 1
  ({ relationships := g.relationships ++ [⟨id, schema, target⟩] }, id)

/-- Sequentially perform one `add_rel` call per (schema, target) argument
pair, collecting the returned ids in order. -/
def Relationships.add_many (g : Relationships) :
    List (String × String) → Relationships × List Nat
  | [] => (g, [])
  | (s, t) :: rest =>
    let (g1, i) := g.add_rel s t
    let (g2, is) := g1.add_many rest
    (g2, i :: is)

/-- The WordprocessingML package aggregate (`Docx` in `docx.rs`). -/
structure Docx where
  app : Option App := none
  core : Option Core := none
  content_types : ContentTypes := ⟨[], []⟩
  document : Document := ⟨[]⟩
  font_table : Option FontTable := none
  styles : Option Styles := none
  rels : Relationships := {}
  document_rels : Option Relationships := none
deriving DecidableEq, Repr

/-- The default (empty) aggregate: only the required parts, all defaulted,
every optional part absent. -/
def Docx.default : Docx := {}

/-- Modelled from the spec: the Part capability.  Each part kind can
serialize itself to XML text and be parsed back from XML text; the
concrete XML grammar is out of scope, so the serializers and parsers are
abstract data supplied to the write and parse operations. -/
structure Codecs where
  serApp : App → String
  deserApp : String → Except DocxError App
  serCore : Core → String
  deserCore : String → Except DocxError Core
  serContentTypes : ContentTypes → String
  deserContentTypes : String → Except DocxError ContentTypes
  serDocument : Document → String
  deserDocument : String → Except DocxError Document
  serFontTable : FontTable → String
  deserFontTable : String → Except DocxError FontTable
  serStyles : Styles → String
  deserStyles : String → Except DocxError Styles
  serRels : Relationships → String
  deserRels : String → Except DocxError Relationships

/-- A zip archive entry: readable text, or an entry whose read fails
(corrupt entry / I/O failure on `read_to_string`). -/
inductive ZipEntry where
  | text : String → ZipEntry
  | corrupt : ZipEntry
deriving DecidableEq, Repr

/-- A zip container, as the ordered list of its named entries. -/
abbrev Archive := List (String × ZipEntry)

/-- Look an entry up by name (`ZipArchive::by_name`). -/
def by_name : Archive → String → Option ZipEntry
  | [], _ => none
  | (m, e) :: rest, n => if m = n then some e else by_name rest n

/-- `Docx::write`: serialize the aggregate into a zip container in the
fixed order of `docx.rs` lines 42–112, appending one relationship entry
per part written (package level for app/core/document, part level for
styles/fontTable, lazily materializing the part-level graph), then
writing both relationship graphs.  Returns the mutated aggregate together
with the archive. -/
def Docx.write (c : Codecs) (d : Docx) : Docx × Archive :=
  -- content types
  let zip : Archive := [("[Content_Types].xml", .text (c.serContentTypes d.content_types))]
  -- document properties
  let zip := match d.app with
    | some a => zip ++ [("docProps/app.xml", .text (c.serApp a))]
    | none => zip
  let rels := match d.app with
    | some _ => (d.rels.add_rel SCHEMA_REL_EXTENDED "docProps/app.xml").1
    | none => d.rels
  let zip := match d.core with
    | some a => zip ++ [("docProps/core.xml", .text (c.serCore a))]
    | none => zip
  let rels := match d.core with
    | some _ => (rels.add_rel SCHEMA_CORE "docProps/core.xml").1
    | none => rels
  -- documents specific parts
  let zip := zip ++ [("word/document.xml", .text (c.serDocument d.document))]
  let rels := (rels.add_rel SCHEMA_OFFICE_DOCUMENT "word/document.xml").1
  let zip := match d.styles with
    | some s => zip ++ [("word/styles.xml", .text (c.serStyles s))]
    | none => zip
  let drels := match d.styles with
    | some _ => some (((d.document_rels.getD {}).add_rel SCHEMA_STYLES "styles.xml").1)
    | none => d.document_rels
  let zip := match d.font_table with
    | some f => zip ++ [("word/fontTable.xml", .text (c.serFontTable f))]
    | none => zip
  let drels := match d.font_table with
    | some _ => some (((drels.getD {}).add_rel SCHEMA_FONT_TABLE "fontTable.xml").1)
    | none => drels
  -- relationships
  let zip := zip ++ [("_rels/.rels", .text (c.serRels rels))]
  let zip := match drels with
    | some g => zip ++ [("word/_rels/document.xml.rels", .text (c.serRels g))]
    | none => zip
  ({ d with rels := rels, document_rels := drels }, zip)

/-- `into_owned` of a part: a deep copy of its strings.  Modelled from the
spec: ownership is not observable in the embedding, so the deep copy
rebuilds the structure field by field. -/
def App.into_owned (a : App) : App := { content := a.content }

/-- Deep copy of a core properties part. -/
def Core.into_owned (a : Core) : Core := { content := a.content }

/-- Deep copy of a font table part. -/
def FontTable.into_owned (a : FontTable) : FontTable := { content := a.content }

/-- Deep copy of a content-types registry. -/
def ContentTypes.into_owned (a : ContentTypes) : ContentTypes :=
  { defaults := a.defaults, overrides := a.overrides }

/-- Deep copy of a document part. -/
def Document.into_owned (a : Document) : Document := { body := a.body }

/-- Deep copy of a styles part. -/
def Styles.into_owned (a : Styles) : Styles := { styles := a.styles }

/-- Deep copy of a relationship graph. -/
def Relationships.into_owned (a : Relationships) : Relationships :=
  { relationships := a.relationships }

/-- `Docx::into_owned` (`docx.rs` lines 140–151): detach the aggregate
from any borrowed buffer by deep-copying every retained part. -/
def Docx.into_owned (d : Docx) : Docx :=
  { app := d.app.map App.into_owned
    content_types := d.content_types.into_owned
    core := d.core.map Core.into_owned
    document := d.document.into_owned
    document_rels := d.document_rels.map Relationships.into_owned
    font_table := d.font_table.map FontTable.into_owned
    rels := d.rels.into_owned
    styles := d.styles.map Styles.into_owned }

/-- The extraction buffer (`DocxFile`): raw text of each required part
and optional raw text of each optional part. -/
structure DocxFile where
  app : Option String
  content_types : String
  core : Option String
  document : String
  document_rels : Option String
  font_table : Option String
  rels : String
  styles : Option String
deriving DecidableEq, Repr

/-- Read a required entry: not-found and read failures are fatal
(the `read!` macro of `from_reader`). -/
def readEntry (ar : Archive) (n : String) : Except DocxError String :=
  match by_name ar n with
  | none => .error .fileNotFound
  | some (.text s) => .ok s
  | some .corrupt => .error .io

/-- Read an optional entry: not-found is recovered as `none`, any other
read failure propagates (the `option_read!` macro of `from_reader`). -/
def optionRead (ar : Archive) (n : String) : Except DocxError (Option String) :=
  match by_name ar n with
  | none => .ok none
  | some (.text s) => .ok (some s)
  | some .corrupt => .error .io

/-- `DocxFile::from_reader` (`docx.rs` lines 168–213): eagerly extract
the raw text of every known part by its fixed path, in source order. -/
def DocxFile.from_reader (ar : Archive) : Except DocxError DocxFile :=
  Except.bind (optionRead ar "docProps/app.xml") fun app =>
  Except.bind (readEntry ar "[Content_Types].xml") fun content_types =>
  Except.bind (optionRead ar "docProps/core.xml") fun core =>
  Except.bind (optionRead ar "word/_rels/document.xml.rels") fun document_rels =>
  Except.bind (readEntry ar "word/document.xml") fun document =>
  Except.bind (optionRead ar "word/fontTable.xml") fun font_table =>
  Except.bind (readEntry ar "_rels/.rels") fun rels =>
  Except.bind (optionRead ar "word/styles.xml") fun styles =>
  .ok { app, content_types, core, document, document_rels, font_table, rels, styles }

/-- Parse an optional raw-text buffer: the `if let Some(content) = ... ?`
block of `DocxFile::parse`, parsing a present buffer with the part's
parser and mapping an absent one to `none`. -/
def optParse (f : String → Except DocxError α) : Option String → Except DocxError (Option α)
  | some content => Except.map some (f content)
  | none => .ok none

/-- `DocxFile::parse` (`docx.rs` lines 222–269): parse each extracted
buffer with its part's parser, in source order, aborting on the first
failure; absent optional buffers parse to `none`. -/
def DocxFile.parse (c : Codecs) (df : DocxFile) : Except DocxError Docx :=
  Except.bind (optParse c.deserApp df.app) fun app =>
  Except.bind (c.deserDocument df.document) fun document =>
  Except.bind (c.deserContentTypes df.content_types) fun content_types =>
  Except.bind (optParse c.deserCore df.core) fun core =>
  Except.bind (optParse c.deserRels df.document_rels) fun document_rels =>
  Except.bind (optParse c.deserFontTable df.font_table) fun font_table =>
  Except.bind (c.deserRels df.rels) fun rels =>
  Except.bind (optParse c.deserStyles df.styles) fun styles =>
  .ok { app, content_types, core, document, document_rels, font_table, rels, styles }

/-- Whether an `Except` computation succeeded. -/
def exceptOk : Except ε α → Bool
  | .ok _ => true
  | .error _ => false

/-- A concrete instance of the Part capability, used to evaluate the
operations on closed inputs: parts serialize to their text content (or a
fixed tag) and parse back accordingly. -/
def Codecs.triv : Codecs where
  serApp a := a.content
  deserApp s := .ok ⟨s⟩
  serCore a := a.content
  deserCore s := .ok ⟨s⟩
  serContentTypes _ := "ct"
  deserContentTypes _ := .ok ⟨[], []⟩
  serDocument _ := "doc"
  deserDocument _ := .ok ⟨[]⟩
  serFontTable a := a.content
  deserFontTable s := .ok ⟨s⟩
  serStyles _ := "sty"
  deserStyles _ := .ok ⟨[]⟩
  serRels _ := "rels"
  deserRels _ := .ok ⟨[⟨1, SCHEMA_OFFICE_DOCUMENT, "word/document.xml"⟩]⟩

/-- A Part capability whose document parser always fails, exhibiting the
abort-on-parse-failure behaviour of `DocxFile::parse`. -/
def failDoc : Codecs :=
  { Codecs.triv with deserDocument := fun _ => .error (.xml "bad document") }

/-- A concrete archive with all three required entries and no optional
entry; in particular `word/styles.xml` is absent. -/
def arNoStyles : Archive :=
  [("[Content_Types].xml", .text "ct"), ("word/document.xml", .text "d"),
    ("_rels/.rels", .text "r")]

/-- A concrete archive lacking the required `word/document.xml` entry. -/
def arNoDoc : Archive := [("[Content_Types].xml", .text "ct")]

/-- A concrete archive whose optional `docProps/app.xml` entry exists but
cannot be read. -/
def arCorruptApp : Archive := [("docProps/app.xml", .corrupt)]

/-- Whether a relationship is a style-definitions entry targeting
`styles.xml`. -/
def stylesRel (r : Relationship) : Bool :=
  r.schema == SCHEMA_STYLES && r.target == "styles.xml"

/-- An aggregate with styles present, font table absent, and a part-level
relationship graph that already carries a style-definitions entry (as
obtained by parsing a previously written package). -/
def c6bad : Docx :=
  { Docx.default with
    styles := some ⟨[]⟩
    document_rels := some ⟨[⟨1, SCHEMA_STYLES, "styles.xml"⟩]⟩ }

/-- The (schema type, target) projection of a relationship graph, in
insertion order; ids are forgotten so duplicated entries are visible. -/
def typeTargets (g : Relationships) : List (String × String) :=
  g.relationships.map fun r => (r.schema, r.target)

/-- The (type, target) pairs one write pass appends to the package-level
graph: one per present part among app and core, and always one for the
document part. -/
def pkgAppended (d : Docx) : List (String × String) :=
  (if d.app.isSome then [(SCHEMA_REL_EXTENDED, "docProps/app.xml")] else []) ++
  (if d.core.isSome then [(SCHEMA_CORE, "docProps/core.xml")] else []) ++
  [(SCHEMA_OFFICE_DOCUMENT, "word/document.xml")]

/-- The (type, target) pairs one write pass appends to the part-level
graph: one per present part among styles and font table. -/
def partAppended (d : Docx) : List (String × String) :=
  (if d.styles.isSome then [(SCHEMA_STYLES, "styles.xml")] else []) ++
  (if d.font_table.isSome then [(SCHEMA_FONT_TABLE, "fontTable.xml")] else [])

end DocxRs

namespace DocxRs

/-- Every id in a relationship list is bounded by `maxId`. -/
theorem le_maxId_of_mem {r : Relationship} {l : List Relationship} (h : r ∈ l) :
    r.id ≤ maxId l := by
  induction l with
  | nil => cases h
  | cons x xs ih =>
    rcases List.mem_cons.mp h with h | h
    · subst h; exact le_max_left _ _
    · exact le_trans (ih h) (le_max_right _ _)

/-- `maxId` of a list with one relationship appended. -/
theorem maxId_append (l : List Relationship) (r : Relationship) :
    maxId (l ++ [r]) = max (maxId l) r.id := by
  induction l with
  | nil => simp [maxId]
  | cons x xs ih => simp [maxId, ih, Nat.max_assoc]

/-- Ids returned by a sequence of `add_rel` calls are pairwise distinct
and all strictly above every id the starting graph already used. -/
theorem add_many_spec (args : List (String × String)) : ∀ g : Relationships,
    (g.add_many args).2.Nodup ∧ ∀ i ∈ (g.add_many args).2, maxId g.relationships < i := by
  induction args with
  | nil => intro g; simp [Relationships.add_many]
  | cons p rest ih =>
    intro g
    obtain ⟨s, t⟩ := p
    have h1 := ih (g.add_rel s t).1
    have hmax : maxId (g.add_rel s t).1.relationships = maxId g.relationships + 1 := by
      simp [Relationships.add_rel, maxId_append]
    rw [hmax] at h1
    simp only [Relationships.add_many]
    constructor
    · refine List.Nodup.cons (fun hmem => ?_) h1.1
      have := h1.2 _ hmem
      simp [Relationships.add_rel] at this ⊢
    · intro i hi
      rcases List.mem_cons.mp hi with h | h
      · subst h; simp [Relationships.add_rel]
      · have := h1.2 _ h; omega

/-- Inversion of a successful `Except.bind`. -/
theorem bind_ok {ε α β : Type} {x : Except ε α} {f : α → Except ε β} {b : β}
    (h : Except.bind x f = .ok b) : ∃ a, x = .ok a ∧ f a = .ok b := by
  cases x with
  | ok a => exact ⟨a, rfl, h⟩
  | error e => simp [Except.bind] at h

/-- Inversion of a failing `Except.bind`. -/
theorem bind_err {ε α β : Type} {x : Except ε α} {f : α → Except ε β} {e : ε}
    (h : Except.bind x f = .error e) :
    x = .error e ∨ ∃ a, x = .ok a ∧ f a = .error e := by
  cases x with
  | ok a => exact .inr ⟨a, rfl, h⟩
  | error e' =>
    left
    simp only [Except.bind] at h
    injection h with h'
    subst h'
    rfl

/-- A failing `optParse` comes from a present buffer whose parser failed
with the same error. -/
theorem optParse_err {α : Type} {f : String → Except DocxError α} {o : Option String}
    {e : DocxError} (h : optParse f o = .error e) : ∃ s, o = some s ∧ f s = .error e := by
  cases o with
  | none => simp [optParse] at h
  | some s =>
    cases hf : f s with
    | ok a => simp [optParse, hf, Except.map] at h
    | error e' =>
      simp only [optParse, hf, Except.map] at h
      cases h
      exact ⟨s, rfl, hf⟩

/-- A successful `optParse` is `some` exactly when the buffer was. -/
theorem optParse_ok_isSome {α : Type} {f : String → Except DocxError α} {o : Option String}
    {x : Option α} (h : optParse f o = .ok x) : x.isSome = o.isSome := by
  cases o with
  | none => simp [optParse] at h; simp [h]
  | some s =>
    cases hf : f s with
    | ok a => simp only [optParse, hf, Except.map] at h; cases h; rfl
    | error e' => simp [optParse, hf, Except.map] at h

/-- A successful `optParse` means the parser succeeded on any present
buffer. -/
theorem optParse_ok_forall {α : Type} {f : String → Except DocxError α} {o : Option String}
    {x : Option α} (h : optParse f o = .ok x) :
    ∀ s, o = some s → ∃ a, f s = .ok a := by
  intro s hs
  subst hs
  cases hf : f s with
  | ok a => exact ⟨a, rfl⟩
  | error e' => simp [optParse, hf, Except.map] at h

/-- `optParse` succeeds whenever the parser succeeds on any present
buffer. -/
theorem optParse_ok_of {α : Type} {f : String → Except DocxError α} {o : Option String}
    (h : ∀ s, o = some s → ∃ a, f s = .ok a) : ∃ x, optParse f o = .ok x := by
  cases o with
  | none => exact ⟨none, rfl⟩
  | some s =>
    obtain ⟨a, ha⟩ := h s rfl
    exact ⟨some a, by simp [optParse, ha, Except.map]⟩

/-- Extracting an archive just written by `Docx::write` succeeds and
recovers exactly the serialized text of each part that was written,
with each optional buffer present exactly when the part was. -/
theorem from_reader_write (c : Codecs) (d : Docx) :
    DocxFile.from_reader (Docx.write c d).2 = .ok
      { app := d.app.map c.serApp
        content_types := c.serContentTypes d.content_types
        core := d.core.map c.serCore
        document := c.serDocument d.document
        document_rels := (Docx.write c d).1.document_rels.map c.serRels
        font_table := d.font_table.map c.serFontTable
        rels := c.serRels (Docx.write c d).1.rels
        styles := d.styles.map c.serStyles } := by
  rcases d with ⟨app, core, ct, doc, ft, sty, rels, drels⟩
  cases app <;> cases core <;> cases ft <;> cases sty <;> cases drels <;>
    simp [Docx.write, DocxFile.from_reader, optionRead, readEntry, by_name, Except.bind]

end DocxRs

namespace DocxRs

/-- Claim C1: writing a Document aggregate to a zip container, extracting
that container with `DocxFile::from_reader` and parsing the extraction
buffer with `DocxFile::parse` yields an aggregate structurally equal to
the written aggregate (the value of `A` after the in-place `write` call):
same text content of every present part, same relationship entries, same
content-type entries.  The Part capability is assumed to round-trip on
the parts of the aggregate. -/
theorem write_extract_parse_roundtrip (c : Codecs) (d : Docx)
    (happ : ∀ a, d.app = some a → c.deserApp (c.serApp a) = .ok a)
    (hcore : ∀ a, d.core = some a → c.deserCore (c.serCore a) = .ok a)
    (hct : c.deserContentTypes (c.serContentTypes d.content_types) = .ok d.content_types)
    (hdoc : c.deserDocument (c.serDocument d.document) = .ok d.document)
    (hft : ∀ a, d.font_table = some a → c.deserFontTable (c.serFontTable a) = .ok a)
    (hsty : ∀ a, d.styles = some a → c.deserStyles (c.serStyles a) = .ok a)
    (hrels : c.deserRels (c.serRels (Docx.write c d).1.rels) = .ok (Docx.write c d).1.rels)
    (hdrels : ∀ g, (Docx.write c d).1.document_rels = some g →
      c.deserRels (c.serRels g) = .ok g) :
    Except.bind (DocxFile.from_reader (Docx.write c d).2) (fun df => df.parse c)
      = .ok (Docx.write c d).1 := by
  rw [from_reader_write]
  simp only [Except.bind]
  rcases d with ⟨app, core, ct, doc, ft, sty, rels, drels⟩
  cases app <;> cases core <;> cases ft <;> cases sty <;> cases drels <;>
    simp_all [Docx.write, DocxFile.parse, optParse, Except.bind, Except.map]

/-- Witness for C1: the round-trip identity evaluated on the default
aggregate with a concrete Part capability. -/
theorem write_extract_parse_roundtrip_witness :
    Except.bind (DocxFile.from_reader (Docx.write Codecs.triv Docx.default).2)
        (fun df => df.parse Codecs.triv) = .ok (Docx.write Codecs.triv Docx.default).1 :=
  write_extract_parse_roundtrip Codecs.triv Docx.default
    (fun _ h => nomatch h) (fun _ h => nomatch h) rfl rfl
    (fun _ h => nomatch h) (fun _ h => nomatch h) rfl (fun _ h => nomatch h)

/-- Claim C2: the id returned by `add_rel` never collides with any id
already in the graph (including sparse, non-sequential ids of an
externally produced graph), and the ids returned by N sequential
`add_rel` calls on a fresh graph are pairwise distinct. -/
theorem add_rel_unique_ids :
    (∀ (g : Relationships) (s t : String), ∀ r ∈ g.relationships, r.id ≠ (g.add_rel s t).2)
    ∧ ∀ args : List (String × String), (Relationships.add_many {} args).2.Nodup := by
  constructor
  · intro g s t r hr
    have := le_maxId_of_mem hr
    simp only [Relationships.add_rel]
    omega
  · intro args; exact (add_many_spec args {}).1

/-- Witness for C2: a graph with sparse non-sequential ids 5 and 2 does
not collide with the next allocated id, and three sequential `add_rel`
calls on a fresh graph return pairwise distinct ids. -/
theorem add_rel_unique_ids_witness :
    (⟨5, "a", "b"⟩ : Relationship).id ≠
      (Relationships.add_rel ⟨[⟨5, "a", "b"⟩, ⟨2, "c", "d"⟩]⟩ "x" "y").2 ∧
    (Relationships.add_many {} [("a", "b"), ("c", "d"), ("e", "f")]).2.Nodup :=
  ⟨add_rel_unique_ids.1 ⟨[⟨5, "a", "b"⟩, ⟨2, "c", "d"⟩]⟩ "x" "y" ⟨5, "a", "b"⟩ (by decide),
    add_rel_unique_ids.2 [("a", "b"), ("c", "d"), ("e", "f")]⟩

/-- Claim C3: extraction treats required and optional parts differently.
An archive whose required entries are readable and which lacks
`word/styles.xml` extracts successfully with `styles` absent (and the
parsed aggregate then has `styles = none`); an archive lacking the
required `word/document.xml` makes `from_reader` fail with the
not-found error; a non-not-found read failure of an optional entry
propagates as a fatal error instead of being recovered as absent. -/
theorem extraction_required_vs_optional :
    (∀ ar : Archive,
      (∃ s, by_name ar "[Content_Types].xml" = some (.text s)) →
      (∃ s, by_name ar "word/document.xml" = some (.text s)) →
      (∃ s, by_name ar "_rels/.rels" = some (.text s)) →
      (by_name ar "docProps/app.xml" = none ∨
        ∃ s, by_name ar "docProps/app.xml" = some (.text s)) →
      (by_name ar "docProps/core.xml" = none ∨
        ∃ s, by_name ar "docProps/core.xml" = some (.text s)) →
      (by_name ar "word/_rels/document.xml.rels" = none ∨
        ∃ s, by_name ar "word/_rels/document.xml.rels" = some (.text s)) →
      (by_name ar "word/fontTable.xml" = none ∨
        ∃ s, by_name ar "word/fontTable.xml" = some (.text s)) →
      by_name ar "word/styles.xml" = none →
      exceptOk (DocxFile.from_reader ar) = true ∧
      ∀ df, DocxFile.from_reader ar = .ok df → df.styles = none)
    ∧ (∀ ar : Archive,
      (by_name ar "docProps/app.xml" = none ∨
        ∃ s, by_name ar "docProps/app.xml" = some (.text s)) →
      (∃ s, by_name ar "[Content_Types].xml" = some (.text s)) →
      (by_name ar "docProps/core.xml" = none ∨
        ∃ s, by_name ar "docProps/core.xml" = some (.text s)) →
      (by_name ar "word/_rels/document.xml.rels" = none ∨
        ∃ s, by_name ar "word/_rels/document.xml.rels" = some (.text s)) →
      by_name ar "word/document.xml" = none →
      DocxFile.from_reader ar = .error .fileNotFound)
    ∧ (∀ ar : Archive, by_name ar "docProps/app.xml" = some .corrupt →
        DocxFile.from_reader ar = .error .io)
    ∧ (∀ (c : Codecs) (df : DocxFile) (d : Docx), df.styles = none →
        df.parse c = .ok d → d.styles = none) := by
  refine ⟨?_, ?_, ?_, ?_⟩
  · intro ar h1 h2 h3 h4 h5 h6 h7 h8
    obtain ⟨s1, e1⟩ := h1
    obtain ⟨s2, e2⟩ := h2
    obtain ⟨s3, e3⟩ := h3
    rcases h4 with e4 | ⟨s4, e4⟩ <;> rcases h5 with e5 | ⟨s5, e5⟩ <;>
      rcases h6 with e6 | ⟨s6, e6⟩ <;> rcases h7 with e7 | ⟨s7, e7⟩ <;>
      simp [DocxFile.from_reader, optionRead, readEntry, e1, e2, e3, e4, e5, e6, e7, h8,
        exceptOk, Except.bind]
  · intro ar h1 h2 h3 h4 h5
    obtain ⟨s2, e2⟩ := h2
    rcases h1 with e1 | ⟨s1, e1⟩ <;> rcases h3 with e3 | ⟨s3, e3⟩ <;>
      rcases h4 with e4 | ⟨s4, e4⟩ <;>
      simp [DocxFile.from_reader, optionRead, readEntry, e1, e2, e3, e4, h5, Except.bind]
  · intro ar h1
    simp [DocxFile.from_reader, optionRead, h1, Except.bind]
  · intro c df d hsty hd
    obtain ⟨app, h1, hd⟩ := bind_ok hd
    obtain ⟨document, h2, hd⟩ := bind_ok hd
    obtain ⟨content_types, h3, hd⟩ := bind_ok hd
    obtain ⟨core, h4, hd⟩ := bind_ok hd
    obtain ⟨document_rels, h5, hd⟩ := bind_ok hd
    obtain ⟨font_table, h6, hd⟩ := bind_ok hd
    obtain ⟨rels, h7, hd⟩ := bind_ok hd
    obtain ⟨styles, h8, hd⟩ := bind_ok hd
    injection hd with hd
    subst hd
    rw [hsty] at h8
    simpa [optParse] using h8.symm

/-- Witness for C3: extraction succeeds on a concrete archive lacking
`word/styles.xml`, fails with not-found on one lacking
`word/document.xml`, fails with an I/O error on a corrupt optional
entry, and the parsed aggregate of a styles-free buffer has no styles. -/
theorem extraction_required_vs_optional_witness :
    exceptOk (DocxFile.from_reader arNoStyles) = true ∧
    DocxFile.from_reader arNoDoc = .error .fileNotFound ∧
    DocxFile.from_reader arCorruptApp = .error .io ∧
    (⟨none, none, ⟨[], []⟩, ⟨[]⟩, none, none,
      ⟨[⟨1, SCHEMA_OFFICE_DOCUMENT, "word/document.xml"⟩]⟩, none⟩ : Docx).styles = none :=
  ⟨(extraction_required_vs_optional.1 arNoStyles ⟨"ct", rfl⟩ ⟨"d", rfl⟩ ⟨"r", rfl⟩
      (Or.inl rfl) (Or.inl rfl) (Or.inl rfl) (Or.inl rfl) rfl).1,
    extraction_required_vs_optional.2.1 arNoDoc (Or.inl rfl) ⟨"ct", rfl⟩
      (Or.inl rfl) (Or.inl rfl) rfl,
    extraction_required_vs_optional.2.2.1 arCorruptApp rfl,
    extraction_required_vs_optional.2.2.2 Codecs.triv
      ⟨none, "ct", none, "d", none, none, "r", none⟩ _ rfl rfl⟩

/-- Claim C4: writing the default (empty) aggregate produces an archive
with exactly the three entries `[Content_Types].xml`, `word/document.xml`
and `_rels/.rels`, and in particular no `word/_rels/document.xml.rels`
entry. -/
theorem write_default_archive (c : Codecs) :
    (Docx.write c Docx.default).2.map Prod.fst =
      ["[Content_Types].xml", "word/document.xml", "_rels/.rels"] ∧
    by_name (Docx.write c Docx.default).2 "word/_rels/document.xml.rels" = none :=
  ⟨rfl, rfl⟩

end DocxRs

namespace DocxRs

/-- Counterexample to claim C5 as stated: for the aggregate whose
part-level relationship graph is already present (as after parsing a
package that had one) but whose styles part and font table part are both
absent, the written archive does contain a
`word/_rels/document.xml.rels` entry. -/
theorem document_rels_entry_cex :
    (by_name (Docx.write Codecs.triv { Docx.default with document_rels := some {} }).2
        "word/_rels/document.xml.rels").isSome = true
    ∧ ({ Docx.default with document_rels := some {} } : Docx).styles.isSome = false
    ∧ ({ Docx.default with document_rels := some {} } : Docx).font_table.isSome = false :=
  ⟨rfl, rfl, rfl⟩

/-- Claim C5, amended: the written archive contains a
`word/_rels/document.xml.rels` entry if and only if the styles part is
present, the font table part is present, or the aggregate already
carried a part-level relationship graph before the call. -/
theorem document_rels_entry_iff (c : Codecs) (d : Docx) :
    (by_name (Docx.write c d).2 "word/_rels/document.xml.rels").isSome
      = (d.styles.isSome || d.font_table.isSome || d.document_rels.isSome) := by
  rcases d with ⟨app, core, ct, doc, ft, sty, rels, drels⟩
  cases app <;> cases core <;> cases ft <;> cases sty <;> cases drels <;>
    simp [Docx.write, by_name]

/-- Counterexample to claim C6 as stated: for an aggregate with styles
present and font table absent whose part-level graph already contains a
style-definitions entry targeting `styles.xml` (as obtained by parsing a
previously written package), the part-level graph after one write pass
contains two such entries, not exactly one. -/
theorem write_styles_rel_cex :
    (((Docx.write Codecs.triv c6bad).1.document_rels.getD {}).relationships.countP
        stylesRel = 2)
    ∧ c6bad.styles.isSome = true ∧ c6bad.font_table = none := by
  refine ⟨?_, rfl, rfl⟩
  decide

/-- Claim C6, amended: for every aggregate whose styles part is present,
whose font table is absent, and whose part-level graph does not already
contain a style-definitions entry targeting `styles.xml` (in particular
any freshly built aggregate, where that graph is absent), one write pass
leaves the part-level relationship graph — not the package-level one —
with exactly one entry of the style-definitions type targeting
`styles.xml`, while the package-level graph gains no entry of the
style-definitions type. -/
theorem write_styles_rel_scope (c : Codecs) (d : Docx) (s : Styles)
    (hsty : d.styles = some s) (hft : d.font_table = none)
    (hclean : (d.document_rels.getD {}).relationships.countP stylesRel = 0) :
    ∃ g, (Docx.write c d).1.document_rels = some g ∧
      g.relationships.countP stylesRel = 1 ∧
      (Docx.write c d).1.rels.relationships.countP (fun r => r.schema == SCHEMA_STYLES) =
        d.rels.relationships.countP (fun r => r.schema == SCHEMA_STYLES) := by
  rcases d with ⟨app, core, ct, doc, ft, sty, rels, drels⟩
  simp only at hsty hft hclean
  subst hsty; subst hft
  have e1 : (SCHEMA_REL_EXTENDED == SCHEMA_STYLES) = false := by decide
  have e2 : (SCHEMA_CORE == SCHEMA_STYLES) = false := by decide
  have e3 : (SCHEMA_OFFICE_DOCUMENT == SCHEMA_STYLES) = false := by decide
  cases app <;> cases core <;> cases drels <;>
    simp_all [Docx.write, Relationships.add_rel, stylesRel, List.countP_append,
      List.countP_cons, e1, e2, e3]

/-- Witness for C6 (amended): the styles-only aggregate built fresh gets a
part-level graph with exactly one style-definitions entry. -/
theorem write_styles_rel_scope_witness :
    (({ Docx.default with styles := some ⟨[]⟩ } : Docx).font_table = none) ∧
    (((Docx.write Codecs.triv { Docx.default with styles := some ⟨[]⟩ }).1.document_rels.getD
      {}).relationships.countP stylesRel = 1) := by
  obtain ⟨g, hg, h1, h2⟩ :=
    write_styles_rel_scope Codecs.triv { Docx.default with styles := some ⟨[]⟩ } ⟨[]⟩ rfl rfl rfl
  refine ⟨rfl, ?_⟩
  rw [hg]
  exact h1

/-- Claim C7: one write pass appends exactly one relationship entry per
part written, to the scope owning that part — the (type, target) pairs
appended to the package-level graph are one per present part among app
and core plus one for the document, and those appended to the part-level
graph are one per present part among styles and font table — and a
second write pass on the resulting aggregate appends the same pairs
again, duplicating them instead of leaving the graphs unchanged. -/
theorem write_twice_duplicates (c : Codecs) (d : Docx) :
    typeTargets (Docx.write c d).1.rels = typeTargets d.rels ++ pkgAppended d ∧
    typeTargets (Docx.write c (Docx.write c d).1).1.rels
      = typeTargets d.rels ++ pkgAppended d ++ pkgAppended d ∧
    typeTargets ((Docx.write c d).1.document_rels.getD {})
      = typeTargets (d.document_rels.getD {}) ++ partAppended d ∧
    typeTargets ((Docx.write c (Docx.write c d).1).1.document_rels.getD {})
      = typeTargets (d.document_rels.getD {}) ++ partAppended d ++ partAppended d := by
  rcases d with ⟨app, core, ct, doc, ft, sty, rels, drels⟩
  cases app <;> cases core <;> cases ft <;> cases sty <;> cases drels <;>
    simp [Docx.write, Relationships.add_rel, typeTargets, pkgAppended, partAppended]

/-- Claim C8: the write operation mutates only the two relationship
graphs; the fields app, core, content_types, document, styles and
font_table of the aggregate returned by `write` are unchanged. -/
theorem write_frame (c : Codecs) (d : Docx) :
    (Docx.write c d).1.app = d.app ∧ (Docx.write c d).1.core = d.core ∧
    (Docx.write c d).1.content_types = d.content_types ∧
    (Docx.write c d).1.document = d.document ∧
    (Docx.write c d).1.styles = d.styles ∧
    (Docx.write c d).1.font_table = d.font_table :=
  ⟨rfl, rfl, rfl, rfl, rfl, rfl⟩

/-- Claim C9: `DocxFile::parse` succeeds exactly when every present
part's raw text parses; on success each optional field of the aggregate
is `some` exactly for the buffers that are present; on failure the
returned error is the parse error of a failing part and no aggregate is
returned. -/
theorem parse_all_or_nothing (c : Codecs) (df : DocxFile) :
    ((∃ d, df.parse c = .ok d) ↔
      ((∀ s, df.app = some s → ∃ a, c.deserApp s = .ok a) ∧
       (∃ x, c.deserDocument df.document = .ok x) ∧
       (∃ x, c.deserContentTypes df.content_types = .ok x) ∧
       (∀ s, df.core = some s → ∃ a, c.deserCore s = .ok a) ∧
       (∀ s, df.document_rels = some s → ∃ g, c.deserRels s = .ok g) ∧
       (∀ s, df.font_table = some s → ∃ a, c.deserFontTable s = .ok a) ∧
       (∃ g, c.deserRels df.rels = .ok g) ∧
       (∀ s, df.styles = some s → ∃ a, c.deserStyles s = .ok a)))
    ∧ (∀ d, df.parse c = .ok d →
        d.app.isSome = df.app.isSome ∧ d.core.isSome = df.core.isSome ∧
        d.document_rels.isSome = df.document_rels.isSome ∧
        d.font_table.isSome = df.font_table.isSome ∧
        d.styles.isSome = df.styles.isSome)
    ∧ (∀ e, df.parse c = .error e →
        (∃ s, df.app = some s ∧ c.deserApp s = .error e) ∨
        c.deserDocument df.document = .error e ∨
        c.deserContentTypes df.content_types = .error e ∨
        (∃ s, df.core = some s ∧ c.deserCore s = .error e) ∨
        (∃ s, df.document_rels = some s ∧ c.deserRels s = .error e) ∨
        (∃ s, df.font_table = some s ∧ c.deserFontTable s = .error e) ∨
        c.deserRels df.rels = .error e ∨
        (∃ s, df.styles = some s ∧ c.deserStyles s = .error e)) := by
  refine ⟨⟨?_, ?_⟩, ?_, ?_⟩
  · rintro ⟨d, hd⟩
    obtain ⟨app, h1, hd⟩ := bind_ok hd
    obtain ⟨document, h2, hd⟩ := bind_ok hd
    obtain ⟨content_types, h3, hd⟩ := bind_ok hd
    obtain ⟨core, h4, hd⟩ := bind_ok hd
    obtain ⟨document_rels, h5, hd⟩ := bind_ok hd
    obtain ⟨font_table, h6, hd⟩ := bind_ok hd
    obtain ⟨rels, h7, hd⟩ := bind_ok hd
    obtain ⟨styles, h8, hd⟩ := bind_ok hd
    exact ⟨optParse_ok_forall h1, ⟨_, h2⟩, ⟨_, h3⟩, optParse_ok_forall h4,
      optParse_ok_forall h5, optParse_ok_forall h6, ⟨_, h7⟩, optParse_ok_forall h8⟩
  · rintro ⟨h1, ⟨x2, h2⟩, ⟨x3, h3⟩, h4, h5, h6, ⟨x7, h7⟩, h8⟩
    obtain ⟨x1, e1⟩ := optParse_ok_of h1
    obtain ⟨x4, e4⟩ := optParse_ok_of h4
    obtain ⟨x5, e5⟩ := optParse_ok_of h5
    obtain ⟨x6, e6⟩ := optParse_ok_of h6
    obtain ⟨x8, e8⟩ := optParse_ok_of h8
    refine ⟨⟨x1, x4, x3, x2, x6, x8, x7, x5⟩, ?_⟩
    simp only [DocxFile.parse, e1, h2, h3, e4, e5, e6, h7, e8, Except.bind]
  · intro d hd
    obtain ⟨app, h1, hd⟩ := bind_ok hd
    obtain ⟨document, h2, hd⟩ := bind_ok hd
    obtain ⟨content_types, h3, hd⟩ := bind_ok hd
    obtain ⟨core, h4, hd⟩ := bind_ok hd
    obtain ⟨document_rels, h5, hd⟩ := bind_ok hd
    obtain ⟨font_table, h6, hd⟩ := bind_ok hd
    obtain ⟨rels, h7, hd⟩ := bind_ok hd
    obtain ⟨styles, h8, hd⟩ := bind_ok hd
    injection hd with hd
    subst hd
    exact ⟨optParse_ok_isSome h1, optParse_ok_isSome h4, optParse_ok_isSome h5,
      optParse_ok_isSome h6, optParse_ok_isSome h8⟩
  · intro e he
    rcases bind_err he with h | ⟨app, h1, he⟩
    · exact .inl (optParse_err h)
    rcases bind_err he with h | ⟨document, h2, he⟩
    · exact .inr (.inl h)
    rcases bind_err he with h | ⟨content_types, h3, he⟩
    · exact .inr (.inr (.inl h))
    rcases bind_err he with h | ⟨core, h4, he⟩
    · exact .inr (.inr (.inr (.inl (optParse_err h))))
    rcases bind_err he with h | ⟨document_rels, h5, he⟩
    · exact .inr (.inr (.inr (.inr (.inl (optParse_err h)))))
    rcases bind_err he with h | ⟨font_table, h6, he⟩
    · exact .inr (.inr (.inr (.inr (.inr (.inl (optParse_err h))))))
    rcases bind_err he with h | ⟨rels, h7, he⟩
    · exact .inr (.inr (.inr (.inr (.inr (.inr (.inl h))))))
    rcases bind_err he with h | ⟨styles, h8, he⟩
    · exact .inr (.inr (.inr (.inr (.inr (.inr (.inr (optParse_err h)))))))
    cases he

/-- Witness for C9: the optional-presence correspondence evaluated on a
concrete buffer, and a concrete buffer whose document text fails to
parse makes `parse` return exactly that error. -/
theorem parse_all_or_nothing_witness :
    (⟨none, none, ⟨[], []⟩, ⟨[]⟩, none, none,
      ⟨[⟨1, SCHEMA_OFFICE_DOCUMENT, "word/document.xml"⟩]⟩, none⟩ : Docx).app.isSome
        = (⟨none, "ct", none, "d", none, none, "r", none⟩ : DocxFile).app.isSome ∧
    DocxFile.parse failDoc ⟨none, "ct", none, "bad", none, none, "r", none⟩
      = .error (.xml "bad document") :=
  ⟨((parse_all_or_nothing Codecs.triv ⟨none, "ct", none, "d", none, none, "r", none⟩).2.1
      _ rfl).1, rfl⟩

/-- Claim C10: `into_owned` preserves the aggregate's structure exactly:
every field of the result equals the corresponding field of the input
(only string ownership, invisible to the embedding, changes). -/
theorem into_owned_id (d : Docx) : d.into_owned = d := by
  rcases d with ⟨app, core, ct, doc, ft, sty, rels, drels⟩
  cases app <;> cases core <;> cases ft <;> cases sty <;> cases drels <;> rfl

end DocxRs

namespace DocxRs

/-- Witness for C4: the three-entry archive evaluated with a concrete
Part capability. -/
theorem write_default_archive_witness :
    (Docx.write Codecs.triv Docx.default).2.map Prod.fst =
      ["[Content_Types].xml", "word/document.xml", "_rels/.rels"] ∧
    by_name (Docx.write Codecs.triv Docx.default).2 "word/_rels/document.xml.rels" = none :=
  write_default_archive Codecs.triv

/-- Witness for C5 (amended): the presence equivalence evaluated on the
default aggregate with a concrete Part capability. -/
theorem document_rels_entry_iff_witness :
    (by_name (Docx.write Codecs.triv Docx.default).2 "word/_rels/document.xml.rels").isSome
      = (Docx.default.styles.isSome || Docx.default.font_table.isSome ||
          Docx.default.document_rels.isSome) :=
  document_rels_entry_iff Codecs.triv Docx.default

/-- Witness for C7: the append equations evaluated on the default
aggregate with a concrete Part capability. -/
theorem write_twice_duplicates_witness :
    typeTargets (Docx.write Codecs.triv Docx.default).1.rels
      = typeTargets Docx.default.rels ++ pkgAppended Docx.default ∧
    typeTargets (Docx.write Codecs.triv (Docx.write Codecs.triv Docx.default).1).1.rels
      = typeTargets Docx.default.rels ++ pkgAppended Docx.default ++ pkgAppended Docx.default ∧
    typeTargets ((Docx.write Codecs.triv Docx.default).1.document_rels.getD {})
      = typeTargets (Docx.default.document_rels.getD {}) ++ partAppended Docx.default ∧
    typeTargets ((Docx.write Codecs.triv
        (Docx.write Codecs.triv Docx.default).1).1.document_rels.getD {})
      = typeTargets (Docx.default.document_rels.getD {}) ++ partAppended Docx.default
          ++ partAppended Docx.default :=
  write_twice_duplicates Codecs.triv Docx.default

/-- Witness for C8: the frame condition evaluated on a concrete
aggregate with a concrete Part capability. -/
theorem write_frame_witness :
    (Docx.write Codecs.triv c6bad).1.app = c6bad.app ∧
    (Docx.write Codecs.triv c6bad).1.core = c6bad.core ∧
    (Docx.write Codecs.triv c6bad).1.content_types = c6bad.content_types ∧
    (Docx.write Codecs.triv c6bad).1.document = c6bad.document ∧
    (Docx.write Codecs.triv c6bad).1.styles = c6bad.styles ∧
    (Docx.write Codecs.triv c6bad).1.font_table = c6bad.font_table :=
  write_frame Codecs.triv c6bad

/-- Witness for C10: structure preservation of `into_owned` evaluated on
a concrete aggregate. -/
theorem into_owned_id_witness : c6bad.into_owned = c6bad :=
  into_owned_id c6bad

end DocxRs
